import Mathlib

/-
Verification development for the Reddit-at-Scale conversion scripts.

Shallow embedding of:
  - src/extras/bz2_to_parquet.py      (pandas/pyarrow streaming converter:
    type coercion `coerce_chunk`, schema reconciliation `ensure_columns`,
    the chunk readers, and the driver `main`)
  - src/duckdb_csv_to_parquet.py      (per-file DuckDB converter loop)
  - src/extras/duckdb_bz2_to_parquet.py (`detect_format` variant)

Machine integers are modelled as Int/Nat with explicit range checks at
2^63 / 2^64; pandas/pyarrow nullable columns are lists of tagged cells;
float64 values are idealised as exact rationals (no claim below depends
on rounding); exceptions are modelled with Option/Except.
-/

namespace RedditConv

/-! ## Data model: cells, columns, chunks, schemas -/

/-- Arrow-side column type after `convert_dtypes(dtype_backend="pyarrow")`
and the coercion heuristics: string, Int64, UInt64, Float64, boolean. -/
inductive DType where
  | tstring
  | tint64
  | tuint64
  | tfloat64
  | tbool
deriving DecidableEq, Repr

/-- One cell of a column: null, or a typed value. Float64 is idealised as ℚ. -/
inductive TCell where
  | null
  | str (s : String)
  | int (n : Int)
  | uint (n : Nat)
  | float (q : ℚ)
  | bool (b : Bool)
deriving DecidableEq, Repr

/-- A named, typed column of cells (a pandas Series inside a DataFrame). -/
structure Col where
  name : String
  dtype : DType
  cells : List TCell
deriving DecidableEq, Repr

/-- A DataFrame chunk: its index length (`len(df)`) and its columns. -/
structure Chunk where
  nrows : Nat
  cols : List Col
deriving DecidableEq, Repr

/-- An arrow schema: ordered (column name, type) pairs. -/
abbrev Schema := List (String × DType)

/-- `pa.Table.from_pandas(chunk).schema`: names and dtypes in column order. -/
def schemaOf (df : Chunk) : Schema :=
  df.cols.map (fun c => (c.name, c.dtype))

/-- All columns agree with the chunk's row count. -/
def ChunkWF (df : Chunk) : Prop :=
  ∀ c ∈ df.cols, c.cells.length = df.nrows

/-- A cell a string/object column can hold: null or a string. -/
def isTextCell : TCell → Bool
  | .null => true
  | .str _ => true
  | _ => false

/-- A text column's cells are only nulls and strings. -/
def TextWF (cells : List TCell) : Prop :=
  ∀ c ∈ cells, isTextCell c = true

instance (df : Chunk) : Decidable (ChunkWF df) :=
  List.decidableBAll _ df.cols

instance (cells : List TCell) : Decidable (TextWF cells) :=
  List.decidableBAll _ cells

/-! ## String predicates used by `coerce_chunk` -/

/-- Nonempty all-digit character list. -/
def digitsNE (l : List Char) : Bool :=
  !l.isEmpty && l.all Char.isDigit

/-- The regex `^[+-]?\d+$` of `coerce_chunk` (integer pattern). -/
def isIntLit (s : String) : Bool :=
  match s.data with
  | [] => false
  | c :: rest => if c = '+' || c = '-' then digitsNE rest else digitsNE (c :: rest)

/-- Decimal value of a digit list. -/
def digitsVal (l : List Char) : Nat :=
  l.foldl (fun a c => a * 10 + (c.toNat - 48)) 0

/-- Integer value of a `[+-]?\d+` literal (0 on junk; only used under `isIntLit`). -/
def intVal (s : String) : Int :=
  match s.data with
  | '-' :: rest => -(digitsVal rest : Int)
  | '+' :: rest => (digitsVal rest : Int)
  | l => (digitsVal l : Int)

/-- ASCII lower-casing, as Python `str.lower()` on the relevant inputs. -/
def lowerStr (s : String) : String :=
  String.mk (s.data.map Char.toLower)

/-- Python `'-' in s` (`s_str.str.contains('-', regex=False)`). -/
def hasDash (s : String) : Bool :=
  s.data.any (fun c => c == '-')

/-- Leading minus sign, as the arrow unsigned parser rejects it. -/
def startsDash (s : String) : Bool :=
  match s.data with
  | '-' :: _ => true
  | _ => false

/-- Python `str.endswith(suffix)`. -/
def endsWithStr (s suf : String) : Bool :=
  List.isSuffixOf suf.data s.data

/-- First character is a brace or bracket (`s[:1] in ("\x7b", "[")` /
`s.startswith(...)` on the stripped non-blank line). -/
def sniffJsonlLine (s : String) : Bool :=
  match s.data with
  | c :: _ => c == '\x7b' || c == '['
  | [] => false

/-- Case-insensitive `"true"`/`"false"` membership (`low.isin(["true","false"])`). -/
def isBoolLit (s : String) : Bool :=
  lowerStr s = "true" || lowerStr s = "false"

/-- Exact rational value of a decimal literal with exponent. -/
def ratOfParts (sgn : Int) (mantissa : Nat) (fracLen : Nat) (e : Int) : ℚ :=
  mkRat (sgn * (mantissa : Int) * 10 ^ e.toNat)
    (10 ^ (fracLen + (-e).toNat))

/-- General numeric literal accepted by `pd.to_numeric`: optional sign,
digits with optional decimal point, optional exponent; value as exact ℚ
(`ratOfParts` assembles sign · mantissa · 10^(e - fracLen)). -/
def numParse (s : String) : Option ℚ :=
  let sgnRest : Int × List Char :=
    match s.data with
    | '+' :: r => (1, r)
    | '-' :: r => (-1, r)
    | r => (1, r)
  let ip := sgnRest.2.takeWhile Char.isDigit
  let l1 := sgnRest.2.dropWhile Char.isDigit
  let fpRest : List Char × List Char :=
    match l1 with
    | '.' :: r => (r.takeWhile Char.isDigit, r.dropWhile Char.isDigit)
    | r => ([], r)
  let fp := fpRest.1
  let l2 := if l1.head? = some '.' then fpRest.2 else l1
  if ip.isEmpty && fp.isEmpty then none
  else
    match l2 with
    | [] => some (ratOfParts sgnRest.1 (digitsVal (ip ++ fp)) fp.length 0)
    | c :: r =>
      if c = 'e' || c = 'E' then
        let esgnRest : Int × List Char :=
          match r with
          | '+' :: t => (1, t)
          | '-' :: t => (-1, t)
          | t => (1, t)
        let ed := esgnRest.2.takeWhile Char.isDigit
        let tl := esgnRest.2.dropWhile Char.isDigit
        if ed.isEmpty || !tl.isEmpty then none
        else some (ratOfParts sgnRest.1 (digitsVal (ip ++ fp)) fp.length
          (esgnRest.1 * (digitsVal ed : Int)))
      else none

/-! ## Arrow casts (`astype(...)` on pyarrow-backed columns, and the
column-wise cast done by `pa.Table.from_pandas(chunk, schema=schema)`).
Casting a null succeeds for every target; casting a string to a numeric
type parses it and fails (raises) on junk or out-of-range values. -/

/-- Cast one cell to a target type; `none` models a raised cast error. -/
def castCell : DType → TCell → Option TCell
  | _, .null => some .null
  | .tstring, .str s => some (.str s)
  | .tstring, _ => none
  | .tint64, .str s =>
    if isIntLit s = true ∧ -(2 ^ 63) ≤ intVal s ∧ intVal s < 2 ^ 63 then
      some (.int (intVal s))
    else none
  | .tint64, .int n => some (.int n)
  | .tint64, .uint n => if (n : Int) < 2 ^ 63 then some (.int (n : Int)) else none
  | .tint64, .float q =>
    if q.den = 1 ∧ -(2 ^ 63) ≤ q.num ∧ q.num < 2 ^ 63 then some (.int q.num) else none
  | .tint64, .bool b => some (.int (cond b 1 0))
  | .tuint64, .str s =>
    if isIntLit s = true ∧ startsDash s = false ∧ intVal s < 2 ^ 64 then
      some (.uint (intVal s).toNat)
    else none
  | .tuint64, .int n => if 0 ≤ n ∧ n < 2 ^ 64 then some (.uint n.toNat) else none
  | .tuint64, .uint n => some (.uint n)
  | .tuint64, .float q =>
    if q.den = 1 ∧ 0 ≤ q.num ∧ q.num < 2 ^ 64 then some (.uint q.num.toNat) else none
  | .tuint64, .bool b => some (.uint (cond b 1 0))
  | .tfloat64, .str s => (numParse s).map (fun q => .float q)
  | .tfloat64, .int n => some (.float (n : ℚ))
  | .tfloat64, .uint n => some (.float (n : ℚ))
  | .tfloat64, .float q => some (.float q)
  | .tfloat64, .bool b => some (.float (cond b 1 0))
  | .tbool, .str s =>
    if lowerStr s = "true" then some (.bool true)
    else if lowerStr s = "false" then some (.bool false)
    else none
  | .tbool, .bool b => some (.bool b)
  | .tbool, _ => none

/-- Cast a whole column of cells; fails (raises) as soon as one cell fails. -/
def tryCastCells (d : DType) : List TCell → Option (List TCell)
  | [] => some []
  | c :: rest =>
    match castCell d c with
    | none => none
    | some c2 =>
      match tryCastCells d rest with
      | none => none
      | some rest2 => some (c2 :: rest2)

/-! ## Type coercion engine (`coerce_chunk`, bz2_to_parquet.py lines 139-189) -/

/-- The string value of a cell if it is a non-null text cell. -/
def cellText (c : TCell) : Option String :=
  match c with
  | .str s => some s
  | _ => none

/-- The non-null string values of a text column (`s_str` with nulls dropped). -/
def nonNullTexts (cells : List TCell) : List String :=
  cells.filterMap cellText

/-- Coerce one text column, following `coerce_chunk` step by step:
1. if the fraction of non-null values matching `^[+-]?\d+$` exceeds 0.98,
   try Int64; on failure, try UInt64 only if no matched value contains a
   minus sign; else keep the strings;
2. else if the fraction (over all rows) parseable via `pd.to_numeric`
   exceeds 0.98, convert to Float64 nulling failures;
3. else if the fraction (over all rows) that lower-cases to true/false
   exceeds 0.98, convert to boolean nulling the rest;
4. else keep the strings.
The fraction comparisons `x > 0.98` are expressed exactly over rationals
as `98 * denominator < 100 * numerator`; the pandas `.mean()` over a
nullable boolean mask skips nulls (step 1's denominator), while
`notna().mean()` and `isin(...).mean()` count all rows (steps 2-3). -/
def coerceTextCol (cells : List TCell) : DType × List TCell :=
  let nn := nonNullTexts cells
  let m := nn.filter (fun s => isIntLit s)
  if 0 < nn.length ∧ 98 * nn.length < 100 * m.length then
    match tryCastCells .tint64 cells with
    | some out => (.tint64, out)
    | none =>
      if m.any (fun s => hasDash s) then (.tstring, cells)
      else
        match tryCastCells .tuint64 cells with
        | some out => (.tuint64, out)
        | none => (.tstring, cells)
  else
    let numOk := cells.countP (fun c => ((cellText c).bind numParse).isSome)
    if 98 * cells.length < 100 * numOk then
      (.tfloat64, cells.map (fun c =>
        match (cellText c).bind numParse with
        | some q => .float q
        | none => .null))
    else
      let boolOk := cells.countP (fun c =>
        match cellText c with
        | some s => isBoolLit s
        | none => false)
      if 98 * cells.length < 100 * boolOk then
        (.tbool, cells.map (fun c =>
          match cellText c with
          | some s =>
            if lowerStr s = "true" then .bool true
            else if lowerStr s = "false" then .bool false
            else .null
          | none => .null))
      else (.tstring, cells)

/-- `coerce_chunk` visits only string/object columns; others pass through. -/
def coerceCol (c : Col) : Col :=
  if c.dtype = .tstring then
    ⟨c.name, (coerceTextCol c.cells).1, (coerceTextCol c.cells).2⟩
  else c

/-- `coerce_chunk` over a whole chunk. -/
def coerceChunk (df : Chunk) : Chunk :=
  ⟨df.nrows, df.cols.map coerceCol⟩

/-! ## Schema reconciliation (`ensure_columns`, lines 192-196) -/

/-- `df.columns` lookup by name. -/
def findCol (cols : List Col) (nm : String) : Option Col :=
  cols.find? (fun c => c.name = nm)

/-- The column that `ensure_columns` contributes for one canonical entry:
the batch's own column when present, otherwise a fresh all-null column
(`df[name] = pd.NA`, broadcast to the index length). -/
def reconCol (df : Chunk) (p : String × DType) : Col :=
  match findCol df.cols p.1 with
  | some c => c
  | none => ⟨p.1, DType.tstring, List.replicate df.nrows TCell.null⟩

/-- `ensure_columns(df, schema)`: add missing canonical columns as nulls,
then select `df[schema.names]` (drops extras, reorders to canonical order). -/
def ensureColumns (df : Chunk) (sch : Schema) : Chunk :=
  ⟨df.nrows, sch.map (reconCol df)⟩

/-- Column-wise safe cast of `pa.Table.from_pandas(chunk, schema=schema)`;
`none` models the raised ArrowInvalid. -/
def castCols : List Col → Schema → Option (List Col)
  | [], [] => some []
  | c :: cs, p :: ps =>
    if c.name = p.1 then
      match tryCastCells p.2 c.cells with
      | none => none
      | some out =>
        match castCols cs ps with
        | none => none
        | some rest => some (⟨c.name, p.2, out⟩ :: rest)
    else none
  | _, _ => none

/-- `pa.Table.from_pandas(chunk, schema=schema, preserve_index=False)`. -/
def tableFromPandas (sch : Schema) (df : Chunk) : Option Chunk :=
  match castCols df.cols sch with
  | none => none
  | some cs => some ⟨df.nrows, cs⟩

/-! ## Chunk readers (`iter_chunks_csv` lines 109-137, `iter_chunks_jsonl`).
The pandas readers are abstracted by their observable outcome on one file:
either `pd.read_csv`/first pull raises `EmptyDataError`, raises some other
parse/decode error, or yields a list of chunks. The generators catch only
`pd.errors.EmptyDataError` (CSV) resp. `ValueError` (JSONL); anything else
propagates to the caller, which `Except.error` models. -/

/-- What pandas does when `iter_chunks_csv` first touches a file. -/
inductive CsvReadOutcome where
  | emptyData
  | parseError
  | ok (chunks : List Chunk)
deriving DecidableEq

/-- What pandas does when `iter_chunks_jsonl` first touches a file. -/
inductive JsonlReadOutcome where
  | valueError
  | ok (chunks : List Chunk)
deriving DecidableEq

/-- `iter_chunks_csv`: `except pd.errors.EmptyDataError: return`; any other
exception escapes the generator. -/
def iterChunksCsv : CsvReadOutcome → Except Unit (List Chunk)
  | .emptyData => .ok []
  | .parseError => .error ()
  | .ok l => .ok l

/-- `iter_chunks_jsonl`: `except ValueError: return` (pandas JSON parse
failures are ValueErrors, so the JSONL reader never raises on parse). -/
def iterChunksJsonl : JsonlReadOutcome → Except Unit (List Chunk)
  | .valueError => .ok []
  | .ok l => .ok l

/-! ## Pipeline driver (`main` of bz2_to_parquet.py, lines 234-318).
A run is modelled over the per-file reader results. `Except.error st`
carries the mutable state at the point a fatal exception is raised, so the
`finally: writer.close()` clause can be applied to it in `runJob`. -/

/-- Per-file console report. -/
inductive Report where
  | wrote (name : String) (rows : Nat)
  | skippedEmpty (name : String)
deriving DecidableEq, Repr

/-- Driver state: canonical schema, whether the ParquetWriter exists (and
hence the destination file), tables appended so far, and the counters. -/
structure RunState where
  schema : Option Schema
  writerMade : Bool
  written : List Chunk
  totalRows : Nat
  filesDone : Nat
  reports : List Report
deriving DecidableEq, Repr

/-- State before the file loop. -/
def initState : RunState :=
  ⟨none, false, [], 0, 0, []⟩

/-- `chunk.empty` in pandas: true when either axis has length zero. -/
def chunkEmpty (ch : Chunk) : Bool :=
  ch.nrows = 0 || ch.cols.isEmpty

/-- One loop body iteration over a chunk (coercion enabled, the default):
skip empty chunks; adopt the schema and create the writer on the first
non-empty chunk; otherwise reconcile and append, where a failing cast in
`pa.Table.from_pandas(chunk, schema=schema)` raises (fatal). -/
def processChunk (st : RunState) (ch : Chunk) : Except RunState RunState :=
  if chunkEmpty ch then .ok st
  else
    match st.schema with
    | none =>
      .ok { st with
        schema := some (schemaOf (coerceChunk ch))
        writerMade := true
        written := st.written ++ [coerceChunk ch]
        totalRows := st.totalRows + (coerceChunk ch).nrows }
    | some sch =>
      match tableFromPandas sch (ensureColumns (coerceChunk ch) sch) with
      | none => .error st
      | some t =>
        .ok { st with
          written := st.written ++ [t]
          totalRows := st.totalRows + (ensureColumns (coerceChunk ch) sch).nrows }

/-- The chunk loop of one file. -/
def processChunks : RunState → List Chunk → Except RunState RunState
  | st, [] => .ok st
  | st, ch :: rest =>
    match processChunk st ch with
    | .error e => .error e
    | .ok st2 => processChunks st2 rest

/-- One file: pull its chunks (a raising reader aborts the job with the
state as-is), then report `Wrote`/`Skipped empty or unreadable`. -/
def processFile (st : RunState) (nm : String) (rd : Except Unit (List Chunk)) :
    Except RunState RunState :=
  match rd with
  | .error _ => .error st
  | .ok chunks =>
    match processChunks st chunks with
    | .error e => .error e
    | .ok st2 =>
      if st.totalRows < st2.totalRows then
        .ok { st2 with
          filesDone := st2.filesDone + 1
          reports := st2.reports ++ [Report.wrote nm (st2.totalRows - st.totalRows)] }
      else
        .ok { st2 with reports := st2.reports ++ [Report.skippedEmpty nm] }

/-- The file loop inside the `try:` block. -/
def runFiles : RunState → List (String × Except Unit (List Chunk)) → Except RunState RunState
  | st, [] => .ok st
  | st, (nm, rd) :: rest =>
    match processFile st nm rd with
    | .error e => .error e
    | .ok st2 => runFiles st2 rest

/-- How a run ends: normal completion, the distinct `sys.exit(2)` empty
result, or an uncaught exception (non-zero exit via traceback). -/
inductive Outcome where
  | success
  | emptyResult
  | fatalError
deriving DecidableEq, Repr

/-- Observable end-of-run facts: the outcome, whether the destination file
was created, whether `writer.close()` (finalize) ran, and the counters. -/
structure RunResult where
  outcome : Outcome
  fileCreated : Bool
  finalized : Bool
  written : List Chunk
  totalRows : Nat
  filesDone : Nat
  reports : List Report
  schema : Option Schema
deriving DecidableEq, Repr

/-- `main`'s try/finally around the file loop: on any escaping exception the
`finally` closes the writer when it exists; a run with no writer hits the
`sys.exit(2)` "All files were empty" branch (the SystemExit also passes
through the `finally`, where there is no writer to close). -/
def runJob (files : List (String × Except Unit (List Chunk))) : RunResult :=
  match runFiles initState files with
  | .error st =>
    ⟨.fatalError, st.writerMade, st.writerMade, st.written, st.totalRows,
      st.filesDone, st.reports, st.schema⟩
  | .ok st =>
    if st.writerMade then
      ⟨.success, true, true, st.written, st.totalRows, st.filesDone, st.reports, st.schema⟩
    else
      ⟨.emptyResult, false, false, st.written, st.totalRows, st.filesDone, st.reports, st.schema⟩

/-- All chunks a file list would deliver, in order (reader errors deliver
none before raising, which is all the adoption lemma needs). -/
def chunksOf (files : List (String × Except Unit (List Chunk))) : List Chunk :=
  files.foldr (fun f acc => (match f.2 with | .ok l => l | .error _ => []) ++ acc) []

/-- Schema of the first non-empty chunk, after coercion: the canonical
schema the driver adopts. -/
def firstNESchema : List Chunk → Option Schema
  | [] => none
  | ch :: rest =>
    if chunkEmpty ch then firstNESchema rest else some (schemaOf (coerceChunk ch))

/-! ## Per-file DuckDB converter (`main` of duckdb_csv_to_parquet.py,
lines 87-120): walk the CSV files, skip those whose destination exists
(without `--overwrite`), catch any per-file conversion error, log it, and
continue; only existing-destination skips touch the `skipped` counter. -/

/-- One discovered CSV source: does its destination already exist, does its
conversion raise, and with what message. -/
structure CsvSrc where
  name : String
  failReason : String
  dstExists : Bool
  convertFails : Bool
deriving DecidableEq, Repr

/-- Console events of the walk loop. -/
inductive CsvEvent where
  | skippedExisting (dst : String)
  | wrote (dst : String)
  | failed (src : String) (reason : String)
deriving DecidableEq, Repr

/-- The run counters printed at the end. -/
structure CsvCounters where
  total : Nat
  converted : Nat
  skipped : Nat
deriving DecidableEq, Repr

/-- One iteration of the `for src in in_dir.rglob("*.csv")` loop. -/
def csvStep (overwrite : Bool) (acc : CsvCounters × List CsvEvent) (f : CsvSrc) :
    CsvCounters × List CsvEvent :=
  let cnt : CsvCounters := { acc.1 with total := acc.1.total + 1 }
  if f.dstExists && !overwrite then
    ({ cnt with skipped := cnt.skipped + 1 }, acc.2 ++ [CsvEvent.skippedExisting f.name])
  else if f.convertFails then
    (cnt, acc.2 ++ [CsvEvent.failed f.name f.failReason])
  else
    ({ cnt with converted := cnt.converted + 1 }, acc.2 ++ [CsvEvent.wrote f.name])

/-- The whole walk. -/
def runCsvJob (overwrite : Bool) (files : List CsvSrc) : CsvCounters × List CsvEvent :=
  files.foldl (csvStep overwrite) (⟨0, 0, 0⟩, [])

/-- The event one file produces (closed form of `csvStep`). -/
def csvEventFor (overwrite : Bool) (f : CsvSrc) : CsvEvent :=
  if f.dstExists && !overwrite then CsvEvent.skippedExisting f.name
  else if f.convertFails then CsvEvent.failed f.name f.failReason
  else CsvEvent.wrote f.name

/-! ## Format auto-detection (`detect_format` in bz2_to_parquet.py lines
87-107 and in duckdb_bz2_to_parquet.py lines 88-102). A candidate file is
its name plus the stripped first non-blank line of its content (`none`
models both an unreadable file and one with only blank lines). -/

/-- One candidate input file as seen by `detect_format`. -/
structure FileEntry where
  name : String
  firstLine : Option String
deriving DecidableEq, Repr

/-- JSONL suffix hints of the pandas variant (candidates are all `*.bz2`). -/
def jsonlSuffixPandas (n : String) : Bool :=
  endsWithStr n ".jsonl.bz2" || endsWithStr n ".ndjson.bz2"

/-- CSV suffix hint of the pandas variant. -/
def csvSuffixPandas (n : String) : Bool :=
  endsWithStr n ".csv.bz2"

/-- Content sniff of the pandas variant: first non-blank line starting with
a brace or bracket means jsonl, anything else (or no line) means csv. -/
def sniffFmt : Option String → String
  | some s => if sniffJsonlLine s then "jsonl" else "csv"
  | none => "csv"

/-- `detect_format` of bz2_to_parquet.py: jsonl suffixes over all files,
then the csv suffix over all files, then sniff `files[0]` (an IndexError
on an empty list is swallowed by the `except Exception`), default csv. -/
def detectFormatPandas (files : List FileEntry) : String :=
  if files.any (fun f => jsonlSuffixPandas (lowerStr f.name)) then "jsonl"
  else if files.any (fun f => csvSuffixPandas (lowerStr f.name)) then "csv"
  else
    match files with
    | [] => "csv"
    | f :: _ => sniffFmt f.firstLine

/-- JSONL suffix hints of the DuckDB variant. -/
def jsonlSuffixDuck (n : String) : Bool :=
  endsWithStr n ".jsonl" || endsWithStr n ".ndjson" || endsWithStr n ".jsonl.gz" ||
    endsWithStr n ".ndjson.gz" || endsWithStr n ".jsonl.zst" || endsWithStr n ".ndjson.zst"

/-- CSV suffix hints of the DuckDB variant. -/
def csvSuffixDuck (n : String) : Bool :=
  endsWithStr n ".csv" || endsWithStr n ".csv.gz" || endsWithStr n ".csv.zst"

/-- `sniff_bz2_is_jsonl`: first non-blank line starts with brace/bracket;
defaults to False when unreadable or all-blank. -/
def sniffIsJsonl : Option String → Bool
  | some s => sniffJsonlLine s
  | none => false

/-- `detect_format` of duckdb_bz2_to_parquet.py: jsonl suffixes, then csv
suffixes, then sniff the FIRST `.bz2` CANDIDATE (not the first candidate
overall), and plain csv when no `.bz2` file exists. -/
def detectFormatDuck (files : List FileEntry) : String :=
  if files.any (fun f => jsonlSuffixDuck (lowerStr f.name)) then "jsonl"
  else if files.any (fun f => csvSuffixDuck (lowerStr f.name)) then "csv"
  else
    match files.filter (fun f => endsWithStr (lowerStr f.name) ".bz2") with
    | [] => "csv"
    | b :: _ => if sniffIsJsonl b.firstLine then "jsonl" else "csv"

/-- `fmt = args.format if args.format != "auto" else detect_format(files)`
in the pandas variant's `main`. -/
def resolveFormatPandas (argFmt : String) (files : List FileEntry) : String :=
  if argFmt ≠ "auto" then argFmt else detectFormatPandas files

/-- Same resolution in the DuckDB variant's `main`. -/
def resolveFormatDuck (argFmt : String) (files : List FileEntry) : String :=
  if argFmt ≠ "auto" then argFmt else detectFormatDuck files

/-! ## Conversion-success predicates and concrete scenarios -/

/-- A string the arrow Int64 cast accepts: integer pattern in signed range. -/
def i64ok (s : String) : Prop :=
  isIntLit s = true ∧ -(2 ^ 63) ≤ intVal s ∧ intVal s < 2 ^ 63

/-- A string the arrow UInt64 cast accepts: unsigned pattern in range. -/
def u64ok (s : String) : Prop :=
  isIntLit s = true ∧ startsDash s = false ∧ intVal s < 2 ^ 64

instance (s : String) : Decidable (i64ok s) := by
  unfold i64ok
  infer_instance

instance (s : String) : Decidable (u64ok s) := by
  unfold u64ok
  infer_instance

/-- The value a successful Int64 column cast gives each text cell. -/
def i64castCell : TCell → TCell
  | .str s => .int (intVal s)
  | _ => .null

/-- The value a successful UInt64 column cast gives each text cell. -/
def u64castCell : TCell → TCell
  | .str s => .uint (intVal s).toNat
  | _ => .null

/-- Scenario B, first file's single batch: columns `[a, b]`. -/
def scenarioB1 : Chunk :=
  ⟨1, [⟨"a", .tstring, [.str "x"]⟩, ⟨"b", .tstring, [.str "y"]⟩]⟩

/-- Scenario B, second file's single batch: columns `[a, c]`. -/
def scenarioB2 : Chunk :=
  ⟨1, [⟨"a", .tstring, [.str "z"]⟩, ⟨"c", .tstring, [.str "w"]⟩]⟩

/-- Scenario B as a run: two files, schemas `[a,b]` then `[a,c]`. -/
def scenarioBFiles : List (String × Except Unit (List Chunk)) :=
  [("f1.csv.bz2", Except.ok [scenarioB1]), ("f2.csv.bz2", Except.ok [scenarioB2])]

/-- A run whose second file's reader raises after the first file was
written: a fatal error after output writing has begun. -/
def fatalAfterWriteFiles : List (String × Except Unit (List Chunk)) :=
  [("good.csv.bz2", Except.ok [scenarioB1]),
   ("bad.csv.bz2", iterChunksCsv CsvReadOutcome.parseError)]

/-- A discovered CSV file whose conversion raises. -/
def badCsvSrc : CsvSrc :=
  ⟨"bad.csv", "ParserError", false, true⟩

/-- A candidate file with no recognised suffix whose first non-blank line
starts with a brace (JSON object). -/
def txtJsonEntry : FileEntry :=
  ⟨"data.txt", some "\x7b\x22id\x22: 1\x7d"⟩

/-! ## Helper lemmas -/

theorem cellText_some {c : TCell} {s : String} (h : cellText c = some s) :
    c = TCell.str s := by
  cases c <;> simp [cellText] at h
  simp [h]

theorem tryCastCells_length {d : DType} :
    ∀ {cells out : List TCell}, tryCastCells d cells = some out →
      out.length = cells.length := by
  intro cells
  induction cells with
  | nil => intro out h; simp [tryCastCells] at h; simp [← h]
  | cons c rest ih =>
    intro out h
    simp only [tryCastCells] at h
    cases hc : castCell d c with
    | none => rw [hc] at h; exact absurd h (by simp)
    | some c2 =>
      rw [hc] at h
      cases hr : tryCastCells d rest with
      | none => rw [hr] at h; exact absurd h (by simp)
      | some rest2 =>
        rw [hr] at h
        simp at h
        simp [← h, ih hr]

theorem tryCastCells_some_of {d : DType} (f : TCell → TCell) :
    ∀ {cells : List TCell}, (∀ c ∈ cells, castCell d c = some (f c)) →
      tryCastCells d cells = some (cells.map f) := by
  intro cells
  induction cells with
  | nil => intro _; rfl
  | cons c rest ih =>
    intro h
    have hc := h c (by simp)
    have hr := ih (fun x hx => h x (by simp [hx]))
    simp [tryCastCells, hc, hr]

theorem tryCastCells_none_of {d : DType} :
    ∀ {cells : List TCell} {c : TCell}, c ∈ cells → castCell d c = none →
      tryCastCells d cells = none := by
  intro cells
  induction cells with
  | nil => intro c hc; exact absurd hc (by simp)
  | cons a rest ih =>
    intro c hc hnone
    rcases List.mem_cons.1 hc with h | h
    · subst h; simp [tryCastCells, hnone]
    · simp only [tryCastCells]
      cases ha : castCell d a with
      | none => rfl
      | some a2 => simp [ih h hnone]

theorem mem_nonNullTexts {cells : List TCell} {s : String}
    (h : s ∈ nonNullTexts cells) : TCell.str s ∈ cells := by
  rcases List.mem_filterMap.1 h with ⟨c, hc, hcs⟩
  rcases cellText_some hcs
  exact hc

theorem coerceTextCol_length (cells : List TCell) :
    ((coerceTextCol cells).2).length = cells.length := by
  simp only [coerceTextCol]
  by_cases hfrac : 0 < (nonNullTexts cells).length ∧
      98 * (nonNullTexts cells).length <
        100 * (List.filter (fun s => isIntLit s) (nonNullTexts cells)).length
  · rw [if_pos hfrac]
    cases h1 : tryCastCells DType.tint64 cells with
    | some out => simp [tryCastCells_length h1]
    | none =>
      simp only [h1]
      cases hneg : (List.filter (fun s => isIntLit s) (nonNullTexts cells)).any
          (fun s => hasDash s) with
      | true => simp [hneg]
      | false =>
        simp only [hneg, Bool.false_eq_true, if_false]
        cases h2 : tryCastCells DType.tuint64 cells with
        | some out => simp [tryCastCells_length h2]
        | none => simp
  · rw [if_neg hfrac]
    by_cases hnum : 98 * cells.length <
        100 * List.countP (fun c => ((cellText c).bind numParse).isSome) cells
    · simp [hnum]
    · rw [if_neg hnum]
      by_cases hbool : 98 * cells.length <
          100 * List.countP (fun c =>
            match cellText c with
            | some s => isBoolLit s
            | none => false) cells
      · simp [hbool]
      · simp [hbool]

theorem reconCol_name (df : Chunk) (p : String × DType) :
    (reconCol df p).name = p.1 := by
  unfold reconCol
  cases h : findCol df.cols p.1 with
  | none => rfl
  | some c =>
    have := List.find?_some h
    simpa using this

theorem ensureColumns_names (df : Chunk) (sch : Schema) :
    (ensureColumns df sch).cols.map Col.name = sch.map Prod.fst := by
  unfold ensureColumns
  simp only [List.map_map]
  exact List.map_congr_left (fun p _ => reconCol_name df p)

theorem findCol_ensureColumns (df : Chunk) (sch : Schema) (nm : String)
    (h : nm ∈ sch.map Prod.fst) :
    findCol (ensureColumns df sch).cols nm =
      some ((findCol df.cols nm).getD ⟨nm, DType.tstring, List.replicate df.nrows TCell.null⟩) := by
  induction sch with
  | nil => exact absurd h (by simp)
  | cons p ps ih =>
    show findCol (reconCol df p :: ps.map (reconCol df)) nm = _
    by_cases hp : p.1 = nm
    · unfold findCol
      rw [List.find?_cons_of_pos _ (by simp [reconCol_name, hp])]
      unfold reconCol
      rw [hp]
      cases hf : findCol df.cols nm <;> unfold findCol at hf <;> simp [hf]
    · unfold findCol
      rw [List.find?_cons_of_neg _ (by simp [reconCol_name, hp])]
      have hm : nm ∈ ps.map Prod.fst := by
        rcases List.mem_map.1 h with ⟨q, hq, hqn⟩
        rcases List.mem_cons.1 hq with rfl | hq2
        · exact absurd hqn hp
        · exact List.mem_map.2 ⟨q, hq2, hqn⟩
      exact ih hm

theorem castCols_lengths {n : Nat} :
    ∀ {cols : List Col} {sch : Schema} {out : List Col},
      castCols cols sch = some out →
      (∀ c ∈ cols, c.cells.length = n) →
      ∀ c ∈ out, c.cells.length = n := by
  intro cols
  induction cols with
  | nil =>
    intro sch out h _
    cases sch with
    | nil =>
      simp only [castCols, Option.some.injEq] at h
      subst h
      intro c hc
      exact absurd hc (by simp)
    | cons p ps => exact absurd h (by simp [castCols])
  | cons c cs ih =>
    intro sch out h hwf
    cases sch with
    | nil => exact absurd h (by simp [castCols])
    | cons p ps =>
      simp only [castCols] at h
      by_cases hn : c.name = p.1
      · rw [if_pos hn] at h
        cases h1 : tryCastCells p.2 c.cells with
        | none => rw [h1] at h; exact absurd h (by simp)
        | some cast1 =>
          rw [h1] at h
          cases h2 : castCols cs ps with
          | none => rw [h2] at h; exact absurd h (by simp)
          | some rest =>
            rw [h2] at h
            simp only [Option.some.injEq] at h
            intro x hx
            rw [← h] at hx
            rcases List.mem_cons.1 hx with rfl | hx2
            · have := tryCastCells_length h1
              simpa [this] using hwf c (by simp)
            · exact ih h2 (fun y hy => hwf y (by simp [hy])) x hx2
      · rw [if_neg hn] at h
        exact absurd h (by simp)

theorem firstNESchema_append (l1 l2 : List Chunk) :
    firstNESchema (l1 ++ l2) = (firstNESchema l1).or (firstNESchema l2) := by
  induction l1 with
  | nil => simp [firstNESchema, Option.none_or]
  | cons ch rest ih =>
    by_cases he : chunkEmpty ch = true
    · simp [firstNESchema, he, ih]
    · simp [firstNESchema, he]

theorem processChunk_schema {st st' : RunState} {ch : Chunk}
    (h : processChunk st ch = .ok st') :
    st'.schema = st.schema.or
      (if chunkEmpty ch then none else some (schemaOf (coerceChunk ch))) := by
  by_cases he : chunkEmpty ch = true
  · simp only [processChunk, if_pos he, Except.ok.injEq] at h
    subst h
    rw [if_pos he]
    exact Option.or_none.symm
  · rw [if_neg he]
    cases hs : st.schema with
    | none =>
      simp only [processChunk, if_neg he, hs, Except.ok.injEq] at h
      subst h
      simp [hs, Option.none_or]
    | some sch =>
      simp only [processChunk, if_neg he, hs] at h
      cases ht : tableFromPandas sch (ensureColumns (coerceChunk ch) sch) with
      | none =>
        simp only [ht] at h
        exact absurd h (by simp)
      | some t =>
        simp only [ht, Except.ok.injEq] at h
        subst h
        simp [hs, Option.or_some]

theorem processChunks_schema :
    ∀ {l : List Chunk} {st st' : RunState}, processChunks st l = .ok st' →
      st'.schema = st.schema.or (firstNESchema l) := by
  intro l
  induction l with
  | nil =>
    intro st st' h
    simp only [processChunks, Except.ok.injEq] at h
    simp [← h, firstNESchema, Option.or_none]
  | cons ch rest ih =>
    intro st st' h
    simp only [processChunks] at h
    cases hp : processChunk st ch with
    | error e => simp only [hp] at h; exact absurd h (by simp)
    | ok st1 =>
      simp only [hp] at h
      have h1 := processChunk_schema hp
      have h2 := ih h
      rw [h2, h1, Option.or_assoc]
      by_cases he : chunkEmpty ch = true
      · simp [firstNESchema, he, Option.none_or]
      · simp [firstNESchema, he, Option.or]

theorem processFile_schema {st st' : RunState} {nm : String} {chunks : List Chunk}
    (h : processFile st nm (Except.ok chunks) = .ok st') :
    st'.schema = st.schema.or (firstNESchema chunks) := by
  simp only [processFile] at h
  cases hp : processChunks st chunks with
  | error e => simp only [hp] at h; exact absurd h (by simp)
  | ok st2 =>
    simp only [hp] at h
    have h2 := processChunks_schema hp
    by_cases hrw : st.totalRows < st2.totalRows
    · rw [if_pos hrw] at h
      simp only [Except.ok.injEq] at h
      subst h
      exact h2
    · rw [if_neg hrw] at h
      simp only [Except.ok.injEq] at h
      subst h
      exact h2

theorem runFiles_schema :
    ∀ {fs : List (String × Except Unit (List Chunk))} {st st' : RunState},
      runFiles st fs = .ok st' →
      st'.schema = st.schema.or (firstNESchema (chunksOf fs)) := by
  intro fs
  induction fs with
  | nil =>
    intro st st' h
    simp only [runFiles, Except.ok.injEq] at h
    subst h
    simp [chunksOf, firstNESchema, Option.or_none]
  | cons f rest ih =>
    intro st st' h
    obtain ⟨nm, rd⟩ := f
    simp only [runFiles] at h
    cases hp : processFile st nm rd with
    | error e => simp only [hp] at h; exact absurd h (by simp)
    | ok st1 =>
      simp only [hp] at h
      have h2 := ih h
      cases rd with
      | error e => exact absurd hp (by simp [processFile])
      | ok l =>
        have h1 := processFile_schema hp
        have hc : chunksOf ((nm, Except.ok l) :: rest) = l ++ chunksOf rest := rfl
        rw [h2, h1, hc, firstNESchema_append, Option.or_assoc]

theorem processChunk_inv {st st' : RunState} {ch : Chunk}
    (h : processChunk st ch = .ok st')
    (hw : st.writerMade = st.schema.isSome)
    (hr : st.writerMade = true ↔ 0 < st.totalRows) :
    (st'.writerMade = st'.schema.isSome) ∧ (st'.writerMade = true ↔ 0 < st'.totalRows) := by
  by_cases he : chunkEmpty ch = true
  · simp only [processChunk, if_pos he, Except.ok.injEq] at h
    subst h
    exact ⟨hw, hr⟩
  · cases hs : st.schema with
    | none =>
      simp only [processChunk, if_neg he, hs, Except.ok.injEq] at h
      subst h
      have hne : (coerceChunk ch).nrows ≠ 0 := by
        simp only [chunkEmpty, Bool.or_eq_true, decide_eq_true_eq] at he
        push_neg at he
        simpa [coerceChunk] using he.1
      refine ⟨rfl, ?_⟩
      constructor
      · intro _
        show 0 < st.totalRows + (coerceChunk ch).nrows
        omega
      · intro _
        rfl
    | some sch =>
      simp only [processChunk, if_neg he, hs] at h
      cases ht : tableFromPandas sch (ensureColumns (coerceChunk ch) sch) with
      | none =>
        simp only [ht] at h
        exact absurd h (by simp)
      | some t =>
        simp only [ht, Except.ok.injEq] at h
        subst h
        have hwt : st.writerMade = true := by rw [hw, hs]; rfl
        have hrt : 0 < st.totalRows := hr.1 hwt
        refine ⟨hw.trans (by rw [hs]), ?_⟩
        constructor
        · intro _
          show 0 < st.totalRows + (ensureColumns (coerceChunk ch) sch).nrows
          omega
        · intro _
          exact hwt

theorem processChunks_inv :
    ∀ {l : List Chunk} {st st' : RunState}, processChunks st l = .ok st' →
      st.writerMade = st.schema.isSome →
      (st.writerMade = true ↔ 0 < st.totalRows) →
      (st'.writerMade = st'.schema.isSome) ∧ (st'.writerMade = true ↔ 0 < st'.totalRows) := by
  intro l
  induction l with
  | nil =>
    intro st st' h hw hr
    simp only [processChunks, Except.ok.injEq] at h
    subst h
    exact ⟨hw, hr⟩
  | cons ch rest ih =>
    intro st st' h hw hr
    simp only [processChunks] at h
    cases hp : processChunk st ch with
    | error e => simp only [hp] at h; exact absurd h (by simp)
    | ok st1 =>
      simp only [hp] at h
      obtain ⟨hw1, hr1⟩ := processChunk_inv hp hw hr
      exact ih h hw1 hr1

theorem processFile_inv {st st' : RunState} {nm : String}
    {rd : Except Unit (List Chunk)} (h : processFile st nm rd = .ok st')
    (hw : st.writerMade = st.schema.isSome)
    (hr : st.writerMade = true ↔ 0 < st.totalRows) :
    (st'.writerMade = st'.schema.isSome) ∧ (st'.writerMade = true ↔ 0 < st'.totalRows) := by
  cases rd with
  | error e => exact absurd h (by simp [processFile])
  | ok chunks =>
    simp only [processFile] at h
    cases hp : processChunks st chunks with
    | error e => simp only [hp] at h; exact absurd h (by simp)
    | ok st2 =>
      simp only [hp] at h
      obtain ⟨hw2, hr2⟩ := processChunks_inv hp hw hr
      by_cases hrw : st.totalRows < st2.totalRows
      · rw [if_pos hrw] at h
        simp only [Except.ok.injEq] at h
        subst h
        exact ⟨hw2, hr2⟩
      · rw [if_neg hrw] at h
        simp only [Except.ok.injEq] at h
        subst h
        exact ⟨hw2, hr2⟩

theorem runFiles_inv :
    ∀ {fs : List (String × Except Unit (List Chunk))} {st st' : RunState},
      runFiles st fs = .ok st' →
      st.writerMade = st.schema.isSome →
      (st.writerMade = true ↔ 0 < st.totalRows) →
      (st'.writerMade = st'.schema.isSome) ∧ (st'.writerMade = true ↔ 0 < st'.totalRows) := by
  intro fs
  induction fs with
  | nil =>
    intro st st' h hw hr
    simp only [runFiles, Except.ok.injEq] at h
    subst h
    exact ⟨hw, hr⟩
  | cons f rest ih =>
    intro st st' h hw hr
    obtain ⟨nm, rd⟩ := f
    simp only [runFiles] at h
    cases hp : processFile st nm rd with
    | error e => simp only [hp] at h; exact absurd h (by simp)
    | ok st1 =>
      simp only [hp] at h
      obtain ⟨hw1, hr1⟩ := processFile_inv hp hw hr
      exact ih h hw1 hr1

theorem runCsv_total (overwrite : Bool) :
    ∀ (files : List CsvSrc) (acc : CsvCounters × List CsvEvent),
      (List.foldl (csvStep overwrite) acc files).1.total = acc.1.total + files.length := by
  intro files
  induction files with
  | nil => intro acc; simp
  | cons f fs ih =>
    intro acc
    rw [List.foldl_cons, ih]
    cases overwrite <;> cases hd : f.dstExists <;> cases hc : f.convertFails <;>
      simp [csvStep, csvEventFor, hd, hc, List.countP_cons] <;> omega

theorem runCsv_converted (overwrite : Bool) :
    ∀ (files : List CsvSrc) (acc : CsvCounters × List CsvEvent),
      (List.foldl (csvStep overwrite) acc files).1.converted =
        acc.1.converted +
          files.countP (fun f => !(f.dstExists && !overwrite) && !f.convertFails) := by
  intro files
  induction files with
  | nil => intro acc; simp
  | cons f fs ih =>
    intro acc
    rw [List.foldl_cons, ih]
    cases overwrite <;> cases hd : f.dstExists <;> cases hc : f.convertFails <;>
      simp [csvStep, csvEventFor, hd, hc, List.countP_cons] <;> omega

theorem runCsv_skipped (overwrite : Bool) :
    ∀ (files : List CsvSrc) (acc : CsvCounters × List CsvEvent),
      (List.foldl (csvStep overwrite) acc files).1.skipped =
        acc.1.skipped + files.countP (fun f => f.dstExists && !overwrite) := by
  intro files
  induction files with
  | nil => intro acc; simp
  | cons f fs ih =>
    intro acc
    rw [List.foldl_cons, ih]
    cases overwrite <;> cases hd : f.dstExists <;> cases hc : f.convertFails <;>
      simp [csvStep, csvEventFor, hd, hc, List.countP_cons] <;> omega

theorem runCsv_events (overwrite : Bool) :
    ∀ (files : List CsvSrc) (acc : CsvCounters × List CsvEvent),
      (List.foldl (csvStep overwrite) acc files).2 =
        acc.2 ++ files.map (csvEventFor overwrite) := by
  intro files
  induction files with
  | nil => intro acc; simp
  | cons f fs ih =>
    intro acc
    rw [List.foldl_cons, ih]
    cases overwrite <;> cases hd : f.dstExists <;> cases hc : f.convertFails <;>
      simp [csvStep, csvEventFor, hd, hc, List.countP_cons] <;> omega

theorem mem_nonNullTexts_of_mem {cells : List TCell} {s : String}
    (h : TCell.str s ∈ cells) : s ∈ nonNullTexts cells :=
  List.mem_filterMap.2 ⟨TCell.str s, h, rfl⟩

theorem tryCast_i64_some {cells : List TCell} (hwf : TextWF cells)
    (h : ∀ s ∈ nonNullTexts cells, i64ok s) :
    tryCastCells .tint64 cells = some (cells.map i64castCell) := by
  apply tryCastCells_some_of
  intro c hc
  have := hwf c hc
  cases c with
  | null => rfl
  | str s =>
    have hs2 : isIntLit s = true ∧ -(2 ^ 63) ≤ intVal s ∧ intVal s < 2 ^ 63 :=
      h s (mem_nonNullTexts_of_mem hc)
    simp only [castCell, i64castCell]
    rw [if_pos hs2]
  | int n => simp [isTextCell] at this
  | uint n => simp [isTextCell] at this
  | float q => simp [isTextCell] at this
  | bool b => simp [isTextCell] at this

theorem tryCast_i64_none {cells : List TCell} {s : String}
    (hs : s ∈ nonNullTexts cells) (hbad : ¬ i64ok s) :
    tryCastCells .tint64 cells = none := by
  refine tryCastCells_none_of (mem_nonNullTexts hs) ?_
  have hbad2 : ¬ (isIntLit s = true ∧ -(2 ^ 63) ≤ intVal s ∧ intVal s < 2 ^ 63) := hbad
  simp only [castCell]
  rw [if_neg hbad2]

theorem tryCast_u64_some {cells : List TCell} (hwf : TextWF cells)
    (h : ∀ s ∈ nonNullTexts cells, u64ok s) :
    tryCastCells .tuint64 cells = some (cells.map u64castCell) := by
  apply tryCastCells_some_of
  intro c hc
  have := hwf c hc
  cases c with
  | null => rfl
  | str s =>
    have hs2 : isIntLit s = true ∧ startsDash s = false ∧ intVal s < 2 ^ 64 :=
      h s (mem_nonNullTexts_of_mem hc)
    simp only [castCell, u64castCell]
    rw [if_pos hs2]
  | int n => simp [isTextCell] at this
  | uint n => simp [isTextCell] at this
  | float q => simp [isTextCell] at this
  | bool b => simp [isTextCell] at this

theorem tryCast_u64_none {cells : List TCell} {s : String}
    (hs : s ∈ nonNullTexts cells) (hbad : ¬ u64ok s) :
    tryCastCells .tuint64 cells = none := by
  refine tryCastCells_none_of (mem_nonNullTexts hs) ?_
  have hbad2 : ¬ (isIntLit s = true ∧ startsDash s = false ∧ intVal s < 2 ^ 64) := hbad
  simp only [castCell]
  rw [if_neg hbad2]

theorem sniffFmt_total (o : Option String) :
    sniffFmt o = "csv" ∨ sniffFmt o = "jsonl" := by
  cases o with
  | none => left; rfl
  | some s =>
    simp only [sniffFmt]
    by_cases h : sniffJsonlLine s = true
    · rw [if_pos h]; right; rfl
    · rw [if_neg h]; left; rfl

theorem csv_partition (overwrite : Bool) :
    ∀ files : List CsvSrc,
      files.countP (fun f => !(f.dstExists && !overwrite) && !f.convertFails) +
        files.countP (fun f => f.dstExists && !overwrite) +
        files.countP (fun f => !(f.dstExists && !overwrite) && f.convertFails) =
      files.length := by
  intro files
  induction files with
  | nil => simp
  | cons f fs ih =>
    simp only [List.countP_cons, List.length_cons]
    cases overwrite <;> cases hd : f.dstExists <;> cases hc : f.convertFails <;>
      simp [hd, hc] at ih ⊢ <;> omega

/-! ## Claim theorems -/

/-- C1: Schema reconciliation follows first-batch-wins. The driver adopts
verbatim the (name, type) sequence of the first non-empty batch processed
(after coercion) as the canonical schema; `ensure_columns` gives every
subsequent batch exactly the canonical column names in canonical order,
adding each canonical column absent from the batch as an all-null column,
keeping each present column unchanged, and dropping every other column;
and on two files with columns `[a,b]` and `[a,c]`, the output schema is
`[a,b]`, the second file's rows have `b = null`, and `c` is dropped. -/
theorem first_batch_wins :
    (∀ (df : Chunk) (sch : Schema),
        (ensureColumns df sch).cols.map Col.name = sch.map Prod.fst) ∧
    (∀ (df : Chunk) (sch : Schema) (nm : String),
        nm ∈ sch.map Prod.fst →
        findCol (ensureColumns df sch).cols nm =
          some ((findCol df.cols nm).getD
            ⟨nm, DType.tstring, List.replicate df.nrows TCell.null⟩)) ∧
    (∀ files, (runJob files).outcome ≠ Outcome.fatalError →
        (runJob files).schema = firstNESchema (chunksOf files)) ∧
    ((runJob scenarioBFiles).schema = some [("a", DType.tstring), ("b", DType.tstring)] ∧
      (runJob scenarioBFiles).written =
        [⟨1, [⟨"a", .tstring, [.str "x"]⟩, ⟨"b", .tstring, [.str "y"]⟩]⟩,
         ⟨1, [⟨"a", .tstring, [.str "z"]⟩, ⟨"b", .tstring, [.null]⟩]⟩]) := by
  refine ⟨ensureColumns_names, findCol_ensureColumns, ?_, by decide⟩
  intro files hf
  cases h : runFiles initState files with
  | error st =>
    simp only [runJob, h] at hf
    exact absurd rfl hf
  | ok st =>
    have hsch := runFiles_schema h
    simp only [runJob, h]
    by_cases hw : st.writerMade = true
    · rw [if_pos hw]
      show st.schema = _
      rw [hsch]
      exact Option.none_or
    · rw [if_neg hw]
      show st.schema = _
      rw [hsch]
      exact Option.none_or

/-- C1 witness: the first-batch-wins adoption applied to the concrete
scenario-B run, discharging the no-fatal-error hypothesis. -/
theorem first_batch_wins_witness :
    (runJob scenarioBFiles).outcome ≠ Outcome.fatalError ∧
    (runJob scenarioBFiles).schema = firstNESchema (chunksOf scenarioBFiles) :=
  ⟨by decide, first_batch_wins.2.2.1 scenarioBFiles (by decide)⟩

/-- C2: integer coercion for a text column whose fraction of non-null
values matching `[+-]?\d+` exceeds 0.98: if every non-null value is an
integer literal in signed-64-bit range, the column becomes Int64; if the
signed conversion fails but no matched value carries a minus sign and
every non-null value converts as unsigned 64-bit, the column becomes
UInt64; if both conversions fail (or a matched value is negative), the
column is left as text, unchanged. Concrete scenario C: `"1","2"` with a
value above signed range becomes UInt64 when it fits in 64 unsigned bits,
and stays text when it does not. -/
theorem int_coercion_decision (cells : List TCell) (hwf : TextWF cells)
    (hfrac : 0 < (nonNullTexts cells).length ∧
      98 * (nonNullTexts cells).length <
        100 * (List.filter (fun s => isIntLit s) (nonNullTexts cells)).length) :
    ((∀ s ∈ nonNullTexts cells, i64ok s) →
        coerceTextCol cells = (DType.tint64, cells.map i64castCell)) ∧
    (¬ (∀ s ∈ nonNullTexts cells, i64ok s) →
      (∀ s ∈ List.filter (fun s => isIntLit s) (nonNullTexts cells),
          hasDash s = false) →
      (∀ s ∈ nonNullTexts cells, u64ok s) →
        coerceTextCol cells = (DType.tuint64, cells.map u64castCell)) ∧
    (¬ (∀ s ∈ nonNullTexts cells, i64ok s) →
      ((∃ s ∈ List.filter (fun s => isIntLit s) (nonNullTexts cells),
          hasDash s = true) ∨ ¬ (∀ s ∈ nonNullTexts cells, u64ok s)) →
        coerceTextCol cells = (DType.tstring, cells)) ∧
    (coerceTextCol [TCell.str "1", TCell.str "2", TCell.str "18446744073709551615"] =
      (DType.tuint64, [TCell.uint 1, TCell.uint 2, TCell.uint 18446744073709551615])) ∧
    (coerceTextCol [TCell.str "1", TCell.str "2", TCell.str "99999999999999999999"] =
      (DType.tstring,
        [TCell.str "1", TCell.str "2", TCell.str "99999999999999999999"])) := by
  refine ⟨?_, ?_, ?_, by decide, by decide⟩
  · intro hall
    have hcast := tryCast_i64_some hwf hall
    simp only [coerceTextCol]
    rw [if_pos hfrac]
    simp [hcast]
  · intro hnoti64 hnoneg hallu
    push_neg at hnoti64
    obtain ⟨s, hs, hbad⟩ := hnoti64
    have hnone := tryCast_i64_none hs hbad
    have hucast := tryCast_u64_some hwf hallu
    have hany : (List.filter (fun s => isIntLit s) (nonNullTexts cells)).any
        (fun s => hasDash s) = false :=
      List.any_eq_false.2 (fun x hx => by simp [hnoneg x hx])
    simp only [coerceTextCol]
    rw [if_pos hfrac]
    simp [hnone, hany, hucast]
  · intro hnoti64 hdisj
    push_neg at hnoti64
    obtain ⟨s, hs, hbad⟩ := hnoti64
    have hnone := tryCast_i64_none hs hbad
    simp only [coerceTextCol]
    rw [if_pos hfrac]
    cases hany : (List.filter (fun s => isIntLit s) (nonNullTexts cells)).any
        (fun s => hasDash s) with
    | true => simp [hnone, hany]
    | false =>
      rcases hdisj with ⟨t, ht, hneg⟩ | hnotu64
      · have := List.any_eq_true.2 ⟨t, ht, hneg⟩
        rw [hany] at this
        exact absurd this (by simp)
      · push_neg at hnotu64
        obtain ⟨u, hu, hubad⟩ := hnotu64
        have hunone := tryCast_u64_none hu hubad
        simp [hnone, hany, hunone]

/-- C2 witness: a concrete all-signed-integer column coerces to Int64 via
the theorem's first branch. -/
theorem int_coercion_decision_witness :
    coerceTextCol [TCell.str "5", TCell.str "-3"] =
      (DType.tint64, [TCell.int 5, TCell.int (-3)]) := by
  have h := (int_coercion_decision [TCell.str "5", TCell.str "-3"]
    (by decide) (by decide)).1 (by decide)
  simpa using h

/-- C3: for a text column whose integer-pattern fraction does not exceed
0.98, coercion tries Float64 (fraction of values parseable as a general
numeric literal above 0.98, failures nulled), then boolean (fraction of
case-insensitive true/false above 0.98, others nulled), else leaves the
column as text; with concrete instances of all three outcomes. -/
theorem float_bool_fallback (cells : List TCell)
    (hfrac : ¬ (0 < (nonNullTexts cells).length ∧
      98 * (nonNullTexts cells).length <
        100 * (List.filter (fun s => isIntLit s) (nonNullTexts cells)).length)) :
    (98 * cells.length <
        100 * List.countP (fun c => ((cellText c).bind numParse).isSome) cells →
      coerceTextCol cells = (DType.tfloat64, cells.map (fun c =>
        match (cellText c).bind numParse with
        | some q => TCell.float q
        | none => TCell.null))) ∧
    (¬ (98 * cells.length <
        100 * List.countP (fun c => ((cellText c).bind numParse).isSome) cells) →
      98 * cells.length <
        100 * List.countP (fun c =>
          match cellText c with
          | some s => isBoolLit s
          | none => false) cells →
      coerceTextCol cells = (DType.tbool, cells.map (fun c =>
        match cellText c with
        | some s =>
          if lowerStr s = "true" then TCell.bool true
          else if lowerStr s = "false" then TCell.bool false
          else TCell.null
        | none => TCell.null))) ∧
    (¬ (98 * cells.length <
        100 * List.countP (fun c => ((cellText c).bind numParse).isSome) cells) →
      ¬ (98 * cells.length <
        100 * List.countP (fun c =>
          match cellText c with
          | some s => isBoolLit s
          | none => false) cells) →
      coerceTextCol cells = (DType.tstring, cells)) ∧
    (coerceTextCol [TCell.str "1.5", TCell.str "2e3"] =
      (DType.tfloat64, [TCell.float (mkRat 3 2), TCell.float 2000])) ∧
    (coerceTextCol [TCell.str "TRUE", TCell.str "false"] =
      (DType.tbool, [TCell.bool true, TCell.bool false])) ∧
    (coerceTextCol [TCell.str "x", TCell.null] =
      (DType.tstring, [TCell.str "x", TCell.null])) := by
  refine ⟨?_, ?_, ?_, by decide, by decide, by decide⟩
  · intro hnum
    simp only [coerceTextCol]
    rw [if_neg hfrac, if_pos hnum]
  · intro hnum hbool
    simp only [coerceTextCol]
    rw [if_neg hfrac, if_neg hnum, if_pos hbool]
  · intro hnum hbool
    simp only [coerceTextCol]
    rw [if_neg hfrac, if_neg hnum, if_neg hbool]

/-- C3 witness: the Float64 branch applied to a concrete decimal column,
discharging both fraction hypotheses. -/
theorem float_bool_fallback_witness :
    coerceTextCol [TCell.str "1.5"] = (DType.tfloat64, [TCell.float (mkRat 3 2)]) := by
  have h := (float_bool_fallback [TCell.str "1.5"] (by decide)).1 (by decide)
  rw [h]
  decide

/-- C4: row count is preserved through type coercion and schema
reconciliation: coercing a text column keeps its length, `coerce_chunk`
and `ensure_columns` keep the chunk's row count and well-formedness, and
the write-time cast keeps the row count and column lengths. -/
theorem rowcount_preserved :
    (∀ cells : List TCell, ((coerceTextCol cells).2).length = cells.length) ∧
    (∀ df : Chunk, (coerceChunk df).nrows = df.nrows ∧
      (ChunkWF df → ChunkWF (coerceChunk df))) ∧
    (∀ (df : Chunk) (sch : Schema), (ensureColumns df sch).nrows = df.nrows ∧
      (ChunkWF df → ChunkWF (ensureColumns df sch))) ∧
    (∀ (sch : Schema) (df t : Chunk), tableFromPandas sch df = some t →
      t.nrows = df.nrows ∧ (ChunkWF df → ChunkWF t)) := by
  refine ⟨coerceTextCol_length, ?_, ?_, ?_⟩
  · intro df
    refine ⟨rfl, ?_⟩
    intro hwf c hc
    rcases List.mem_map.1 hc with ⟨c0, hc0, rfl⟩
    unfold coerceCol
    by_cases hd : c0.dtype = DType.tstring
    · rw [if_pos hd]
      show (coerceTextCol c0.cells).2.length = df.nrows
      rw [coerceTextCol_length]
      exact hwf c0 hc0
    · rw [if_neg hd]
      exact hwf c0 hc0
  · intro df sch
    refine ⟨rfl, ?_⟩
    intro hwf c hc
    rcases List.mem_map.1 hc with ⟨p, hp, rfl⟩
    unfold reconCol
    cases hf : findCol df.cols p.1 with
    | none => simp [ensureColumns]
    | some c0 =>
      simp only
      exact hwf c0 (List.mem_of_find?_eq_some hf)
  · intro sch df t h
    unfold tableFromPandas at h
    cases hc : castCols df.cols sch with
    | none => rw [hc] at h; exact absurd h (by simp)
    | some cs =>
      rw [hc] at h
      simp only [Option.some.injEq] at h
      subst h
      exact ⟨rfl, fun hwf => castCols_lengths hc hwf⟩

/-- C4 witness: coercion and reconciliation on a concrete well-formed
chunk keep its row count and well-formedness. -/
theorem rowcount_preserved_witness :
    (coerceChunk scenarioB1).nrows = scenarioB1.nrows ∧
    ChunkWF (coerceChunk scenarioB1) ∧
    ChunkWF (ensureColumns scenarioB2 [("a", DType.tstring), ("b", DType.tstring)]) :=
  ⟨(rowcount_preserved.2.1 scenarioB1).1,
   (rowcount_preserved.2.1 scenarioB1).2 (by decide),
   (rowcount_preserved.2.2.1 scenarioB2 [("a", DType.tstring), ("b", DType.tstring)]).2
     (by decide)⟩

/-- C5: the `try/finally` of `main` guarantees that whenever a run aborts
on a per-job fatal error, either `finalize()` (the writer's `close()`) has
fully run, or the destination file was never created: finalization always
matches file creation, so no partially-finalized output remains. -/
theorem fatal_no_partial_output :
    ∀ files, ((runJob files).finalized = (runJob files).fileCreated) ∧
      ((runJob files).outcome = Outcome.fatalError →
        (runJob files).finalized = true ∨ (runJob files).fileCreated = false) := by
  intro files
  cases h : runFiles initState files with
  | error st =>
    simp only [runJob, h]
    exact ⟨by trivial, fun _ => by cases hw : st.writerMade <;> simp [hw]⟩
  | ok st =>
    simp only [runJob, h]
    by_cases hw : st.writerMade = true
    · rw [if_pos hw]
      exact ⟨rfl, fun hc => absurd hc (by simp)⟩
    · rw [if_neg hw]
      exact ⟨rfl, fun hc => absurd hc (by simp)⟩

/-- C5 witness: a run whose second file raises after the first file was
written is fatal with the output created, and the writer was closed. -/
theorem fatal_no_partial_output_witness :
    (runJob fatalAfterWriteFiles).outcome = Outcome.fatalError ∧
    (runJob fatalAfterWriteFiles).fileCreated = true ∧
    ((runJob fatalAfterWriteFiles).finalized = true ∨
      (runJob fatalAfterWriteFiles).fileCreated = false) :=
  ⟨by decide, by decide,
    (fatal_no_partial_output fatalAfterWriteFiles).2 (by decide)⟩

/-- C6 counterexample: a run over a single unreadable CSV file (its first
parse attempt raises a non-EmptyData error) writes zero rows yet ends with
the fatal-error outcome, not the distinct empty-result outcome the claim
prescribes for every zero-row run over empty-or-unreadable inputs. -/
theorem empty_result_counterexample :
    (runJob [("broken.csv.bz2", iterChunksCsv CsvReadOutcome.parseError)]).totalRows = 0 ∧
    (runJob [("broken.csv.bz2", iterChunksCsv CsvReadOutcome.parseError)]).outcome =
      Outcome.fatalError ∧
    decide ((runJob [("broken.csv.bz2", iterChunksCsv CsvReadOutcome.parseError)]).outcome =
      Outcome.emptyResult) = false := by
  refine ⟨by decide, by decide, by decide⟩

/-- C6 (amended): in every run that does not abort fatally, zero rows
written is equivalent to the distinct empty-result outcome (`sys.exit(2)`),
which is distinct from success and creates no output file; runs aborted by
an uncaught reader error write no usable output either but surface the
fatal outcome instead of the empty-result one. -/
theorem empty_result_distinct :
    ∀ files,
      ((runJob files).outcome ≠ Outcome.fatalError →
        ((runJob files).totalRows = 0 ↔ (runJob files).outcome = Outcome.emptyResult)) ∧
      ((runJob files).outcome = Outcome.emptyResult →
        (runJob files).fileCreated = false ∧ (runJob files).totalRows = 0) ∧
      Outcome.emptyResult ≠ Outcome.success := by
  intro files
  cases h : runFiles initState files with
  | error st =>
    simp only [runJob, h]
    exact ⟨fun hf => absurd rfl hf, fun he => absurd he (by simp), by simp⟩
  | ok st =>
    obtain ⟨hw, hr⟩ := runFiles_inv h rfl (by simp [initState])
    simp only [runJob, h]
    by_cases hwt : st.writerMade = true
    · rw [if_pos hwt]
      have hpos := hr.1 hwt
      refine ⟨fun _ => ?_, fun he => absurd he (by simp), by simp⟩
      constructor
      · intro h0
        have h02 : st.totalRows = 0 := h0
        exact absurd h02 (by omega)
      · intro hco
        exact absurd hco (by simp)
    · rw [if_neg hwt]
      have h0 : st.totalRows = 0 := by
        by_contra hx
        exact hwt (hr.2 (Nat.pos_of_ne_zero hx))
      exact ⟨fun _ => ⟨fun _ => rfl, fun _ => h0⟩, fun _ => ⟨rfl, h0⟩, by simp⟩

/-- C6 witness: a run over one empty CSV file ends in the empty-result
outcome with zero rows and no output file, via the amended theorem. -/
theorem empty_result_distinct_witness :
    (runJob [("empty.csv.bz2", iterChunksCsv CsvReadOutcome.emptyData)]).fileCreated = false ∧
    (runJob [("empty.csv.bz2", iterChunksCsv CsvReadOutcome.emptyData)]).totalRows = 0 :=
  (empty_result_distinct [("empty.csv.bz2", iterChunksCsv CsvReadOutcome.emptyData)]).2.1
    (by decide)

/-- C7 counterexample: a CSV file whose first parse attempt fails with an
error other than `EmptyDataError` makes `iter_chunks_csv` raise instead of
yielding an empty sequence, the job aborts fatally, and the file is not
reported as skipped — contradicting the claim for parse-failing files. -/
theorem reader_error_counterexample :
    iterChunksCsv CsvReadOutcome.parseError = Except.error () ∧
    (runJob [("broken2.csv.bz2", iterChunksCsv CsvReadOutcome.parseError)]).outcome =
      Outcome.fatalError ∧
    decide (Report.skippedEmpty "broken2.csv.bz2" ∈
      (runJob [("broken2.csv.bz2", iterChunksCsv CsvReadOutcome.parseError)]).reports) =
      false := by
  refine ⟨rfl, by decide, by decide⟩

/-- C7 (amended): an empty input file (pandas `EmptyDataError`) yields zero
batches without raising, as does any JSONL file whose first parse attempt
fails (`ValueError` is caught, so the JSONL reader never raises); the
driver reports every zero-batch file as skipped, not as an error. A CSV
file whose first parse attempt fails with any other error raises. -/
theorem empty_file_yields_no_batches :
    iterChunksCsv CsvReadOutcome.emptyData = Except.ok [] ∧
    iterChunksJsonl JsonlReadOutcome.valueError = Except.ok [] ∧
    (∀ o, iterChunksJsonl o ≠ Except.error ()) ∧
    (∀ (st : RunState) (nm : String),
      processFile st nm (Except.ok []) =
        Except.ok { st with reports := st.reports ++ [Report.skippedEmpty nm] }) := by
  refine ⟨rfl, rfl, ?_, ?_⟩
  · intro o
    cases o <;> simp [iterChunksJsonl]
  · intro st nm
    simp only [processFile, processChunks]
    rw [if_neg (lt_irrefl st.totalRows)]

/-- C7 witness: the zero-batch skip report applied at the initial state. -/
theorem empty_file_yields_no_batches_witness :
    processFile initState "empty.csv.bz2" (Except.ok []) =
      Except.ok { initState with
        reports := initState.reports ++ [Report.skippedEmpty "empty.csv.bz2"] } :=
  empty_file_yields_no_batches.2.2.2 initState "empty.csv.bz2"

/-- C8 counterexample: a per-file conversion failure is caught and logged,
but the run counters record it in neither `converted` nor `skipped`: after
one failing file, `total = 1` yet `skipped = 0` — not `1` as the claim's
"recorded as skipped in the run counters" requires. -/
theorem failed_not_counted_counterexample :
    (runCsvJob false [badCsvSrc]).1.total = 1 ∧
    CsvEvent.failed "bad.csv" "ParserError" ∈ (runCsvJob false [badCsvSrc]).2 ∧
    (runCsvJob false [badCsvSrc]).1.skipped = 0 ∧
    (runCsvJob false [badCsvSrc]).1.converted = 0 := by
  refine ⟨by decide, by decide, by decide, by decide⟩

/-- C8 (amended): every per-file failure is caught (all files contribute to
`total`, the loop continues) and logged with the offending path and reason;
but failed files are recorded in neither the `converted` nor the `skipped`
counter — `skipped` counts only files whose destination already exists —
so `converted + skipped + failures = total`. -/
theorem perfile_failure_logged :
    ∀ (overwrite : Bool) (files : List CsvSrc),
      (runCsvJob overwrite files).1.total = files.length ∧
      (runCsvJob overwrite files).2 = files.map (csvEventFor overwrite) ∧
      (∀ f ∈ files, (f.dstExists && !overwrite) = false → f.convertFails = true →
        CsvEvent.failed f.name f.failReason ∈ (runCsvJob overwrite files).2) ∧
      (runCsvJob overwrite files).1.skipped =
        files.countP (fun f => f.dstExists && !overwrite) ∧
      (runCsvJob overwrite files).1.converted =
        files.countP (fun f => !(f.dstExists && !overwrite) && !f.convertFails) ∧
      (runCsvJob overwrite files).1.converted + (runCsvJob overwrite files).1.skipped +
          files.countP (fun f => !(f.dstExists && !overwrite) && f.convertFails) =
        (runCsvJob overwrite files).1.total := by
  intro overwrite files
  have ht := runCsv_total overwrite files (⟨0, 0, 0⟩, [])
  have hc := runCsv_converted overwrite files (⟨0, 0, 0⟩, [])
  have hs := runCsv_skipped overwrite files (⟨0, 0, 0⟩, [])
  have hev := runCsv_events overwrite files (⟨0, 0, 0⟩, [])
  have hpart := csv_partition overwrite files
  refine ⟨by simpa using ht, by simpa using hev, ?_, by simpa using hs,
    by simpa using hc, ?_⟩
  · intro f hf hnoskip hfail
    have : csvEventFor overwrite f = CsvEvent.failed f.name f.failReason := by
      unfold csvEventFor
      rw [if_neg (by simp [hnoskip]), if_pos hfail]
    show CsvEvent.failed f.name f.failReason ∈ (runCsvJob overwrite files).2
    rw [show (runCsvJob overwrite files).2 = files.map (csvEventFor overwrite) by
      simpa using hev]
    exact this ▸ List.mem_map_of_mem (csvEventFor overwrite) hf
  · show (runCsvJob overwrite files).1.converted + (runCsvJob overwrite files).1.skipped + _ =
      (runCsvJob overwrite files).1.total
    rw [show (runCsvJob overwrite files).1.converted =
        files.countP (fun f => !(f.dstExists && !overwrite) && !f.convertFails) by
      simpa using hc]
    rw [show (runCsvJob overwrite files).1.skipped =
        files.countP (fun f => f.dstExists && !overwrite) by simpa using hs]
    rw [show (runCsvJob overwrite files).1.total = files.length by simpa using ht]
    exact hpart

/-- C8 witness: the logged-failure conjunct applied to the concrete
failing file, discharging both branch hypotheses. -/
theorem perfile_failure_logged_witness :
    CsvEvent.failed badCsvSrc.name badCsvSrc.failReason ∈ (runCsvJob false [badCsvSrc]).2 :=
  (perfile_failure_logged false [badCsvSrc]).2.2.1 badCsvSrc (by simp) (by decide)
    (by decide)

/-- C9 counterexample: in the DuckDB variant, a candidate list whose only
file `data.txt` has no suffix hint and whose first non-blank line starts
with a brace is detected as `"csv"`, although sniffing the first candidate
file (as the claim prescribes when no suffix matches) would say `"jsonl"`:
the code only ever sniffs the first `.bz2` candidate. -/
theorem sniff_first_candidate_counterexample :
    jsonlSuffixDuck (lowerStr txtJsonEntry.name) = false ∧
    csvSuffixDuck (lowerStr txtJsonEntry.name) = false ∧
    sniffFmt txtJsonEntry.firstLine = "jsonl" ∧
    detectFormatDuck [txtJsonEntry] = "csv" := by
  refine ⟨by decide, by decide, by decide, by decide⟩

/-- C9 (amended): both `detect_format`s resolve suffix hints in priority
order — any line-record (jsonl/ndjson) suffix anywhere wins over any csv
suffix. When no suffix matches, the pandas variant sniffs the first
non-blank line of the FIRST CANDIDATE file (brace/bracket ⇒ jsonl, else
csv, csv when unreadable or all-blank); the DuckDB variant instead sniffs
the first `.bz2` candidate if one exists and otherwise returns csv without
sniffing. -/
theorem detect_priority :
    (∀ files : List FileEntry,
      (∃ f ∈ files, jsonlSuffixPandas (lowerStr f.name) = true) →
      detectFormatPandas files = "jsonl") ∧
    (∀ files : List FileEntry,
      (∀ f ∈ files, jsonlSuffixPandas (lowerStr f.name) = false) →
      (∃ f ∈ files, csvSuffixPandas (lowerStr f.name) = true) →
      detectFormatPandas files = "csv") ∧
    (∀ (f : FileEntry) (rest : List FileEntry),
      (∀ g ∈ f :: rest, jsonlSuffixPandas (lowerStr g.name) = false) →
      (∀ g ∈ f :: rest, csvSuffixPandas (lowerStr g.name) = false) →
      detectFormatPandas (f :: rest) = sniffFmt f.firstLine) ∧
    (∀ files : List FileEntry,
      (∃ f ∈ files, jsonlSuffixDuck (lowerStr f.name) = true) →
      detectFormatDuck files = "jsonl") ∧
    (∀ files : List FileEntry,
      (∀ f ∈ files, jsonlSuffixDuck (lowerStr f.name) = false) →
      (∃ f ∈ files, csvSuffixDuck (lowerStr f.name) = true) →
      detectFormatDuck files = "csv") ∧
    (∀ files : List FileEntry,
      (∀ f ∈ files, jsonlSuffixDuck (lowerStr f.name) = false) →
      (∀ f ∈ files, csvSuffixDuck (lowerStr f.name) = false) →
      detectFormatDuck files =
        (match files.filter (fun f => endsWithStr (lowerStr f.name) ".bz2") with
         | [] => "csv"
         | b :: _ => if sniffIsJsonl b.firstLine then "jsonl" else "csv")) := by
  refine ⟨?_, ?_, ?_, ?_, ?_, ?_⟩
  · intro files hex
    unfold detectFormatPandas
    rw [if_pos (List.any_eq_true.2 hex)]
  · intro files hall hex
    have h1 : files.any (fun f => jsonlSuffixPandas (lowerStr f.name)) = false :=
      List.any_eq_false.2 (fun x hx => by simp [hall x hx])
    unfold detectFormatPandas
    rw [if_neg (by simp [h1]), if_pos (List.any_eq_true.2 hex)]
  · intro f rest hallj hallc
    have h1 : (f :: rest).any (fun g => jsonlSuffixPandas (lowerStr g.name)) = false :=
      List.any_eq_false.2 (fun x hx => by simp [hallj x hx])
    have h2 : (f :: rest).any (fun g => csvSuffixPandas (lowerStr g.name)) = false :=
      List.any_eq_false.2 (fun x hx => by simp [hallc x hx])
    unfold detectFormatPandas
    rw [if_neg (by simp [h1]), if_neg (by simp [h2])]
  · intro files hex
    unfold detectFormatDuck
    rw [if_pos (List.any_eq_true.2 hex)]
  · intro files hall hex
    have h1 : files.any (fun f => jsonlSuffixDuck (lowerStr f.name)) = false :=
      List.any_eq_false.2 (fun x hx => by simp [hall x hx])
    unfold detectFormatDuck
    rw [if_neg (by simp [h1]), if_pos (List.any_eq_true.2 hex)]
  · intro files hallj hallc
    have h1 : files.any (fun f => jsonlSuffixDuck (lowerStr f.name)) = false :=
      List.any_eq_false.2 (fun x hx => by simp [hallj x hx])
    have h2 : files.any (fun f => csvSuffixDuck (lowerStr f.name)) = false :=
      List.any_eq_false.2 (fun x hx => by simp [hallc x hx])
    unfold detectFormatDuck
    rw [if_neg (by simp [h1]), if_neg (by simp [h2])]

/-- C9 witness: the pandas variant's sniff fallback applied to one
hint-less `.bz2` file whose first line opens a JSON object. -/
theorem detect_priority_witness :
    detectFormatPandas [⟨"data.bz2", some "\x7b\x22id\x22: 1\x7d"⟩] =
      sniffFmt (some "\x7b\x22id\x22: 1\x7d") :=
  detect_priority.2.2.1 ⟨"data.bz2", some "\x7b\x22id\x22: 1\x7d"⟩ []
    (by decide) (by decide)

/-- C10: format auto-detection is total. Both `detect_format`s always
return `"csv"` or `"jsonl"` (sniff failure and no-match fall back to
`"csv"`), so with `--format` restricted to auto/csv/jsonl by argparse, the
resolved format is always csv or jsonl and the fatal
"Could not determine format" branch in both `main`s is unreachable. -/
theorem detect_format_total :
    (∀ files : List FileEntry,
      detectFormatPandas files = "csv" ∨ detectFormatPandas files = "jsonl") ∧
    (∀ files : List FileEntry,
      detectFormatDuck files = "csv" ∨ detectFormatDuck files = "jsonl") ∧
    (∀ (files : List FileEntry) (argFmt : String), files ≠ [] →
      (argFmt = "auto" ∨ argFmt = "csv" ∨ argFmt = "jsonl") →
      ((resolveFormatPandas argFmt files = "csv" ∨
          resolveFormatPandas argFmt files = "jsonl") ∧
        (resolveFormatDuck argFmt files = "csv" ∨
          resolveFormatDuck argFmt files = "jsonl"))) := by
  have hp : ∀ files : List FileEntry,
      detectFormatPandas files = "csv" ∨ detectFormatPandas files = "jsonl" := by
    intro files
    unfold detectFormatPandas
    by_cases h1 : files.any (fun f => jsonlSuffixPandas (lowerStr f.name)) = true
    · rw [if_pos h1]
      right
      rfl
    · rw [if_neg h1]
      by_cases h2 : files.any (fun f => csvSuffixPandas (lowerStr f.name)) = true
      · rw [if_pos h2]
        left
        rfl
      · rw [if_neg h2]
        cases files with
        | nil => left; rfl
        | cons f rest => exact sniffFmt_total f.firstLine
  have hd : ∀ files : List FileEntry,
      detectFormatDuck files = "csv" ∨ detectFormatDuck files = "jsonl" := by
    intro files
    unfold detectFormatDuck
    by_cases h1 : files.any (fun f => jsonlSuffixDuck (lowerStr f.name)) = true
    · rw [if_pos h1]
      right
      rfl
    · rw [if_neg h1]
      by_cases h2 : files.any (fun f => csvSuffixDuck (lowerStr f.name)) = true
      · rw [if_pos h2]
        left
        rfl
      · rw [if_neg h2]
        cases hb : files.filter (fun f => endsWithStr (lowerStr f.name) ".bz2") with
        | nil => left; rfl
        | cons b bs =>
          show (if sniffIsJsonl b.firstLine then "jsonl" else "csv") = "csv" ∨
            (if sniffIsJsonl b.firstLine then "jsonl" else "csv") = "jsonl"
          by_cases hs : sniffIsJsonl b.firstLine = true
          · rw [if_pos hs]
            right
            rfl
          · rw [if_neg hs]
            left
            rfl
  refine ⟨hp, hd, ?_⟩
  intro files argFmt _ hfmt
  rcases hfmt with rfl | rfl | rfl
  · constructor
    · show (if ("auto" : String) ≠ "auto" then "auto" else detectFormatPandas files) = _ ∨ _
      rw [if_neg (by simp)]
      exact hp files
    · show (if ("auto" : String) ≠ "auto" then "auto" else detectFormatDuck files) = _ ∨ _
      rw [if_neg (by simp)]
      exact hd files
  · exact ⟨Or.inl (by rw [resolveFormatPandas, if_pos (by decide)]),
      Or.inl (by rw [resolveFormatDuck, if_pos (by decide)])⟩
  · exact ⟨Or.inr (by rw [resolveFormatPandas, if_pos (by decide)]),
      Or.inr (by rw [resolveFormatDuck, if_pos (by decide)])⟩

/-- C10 witness: auto-resolution on a concrete non-empty candidate list
lands in {csv, jsonl} for both variants. -/
theorem detect_format_total_witness :
    (resolveFormatPandas "auto" [txtJsonEntry] = "csv" ∨
      resolveFormatPandas "auto" [txtJsonEntry] = "jsonl") ∧
    (resolveFormatDuck "auto" [txtJsonEntry] = "csv" ∨
      resolveFormatDuck "auto" [txtJsonEntry] = "jsonl") :=
  detect_format_total.2.2 [txtJsonEntry] "auto" (by simp) (Or.inl rfl)

end RedditConv
